import Mathlib

/-!
Verification development for the REX Reddit Enhancement Extension content
scripts.  The definitions below are a shallow embedding of the JavaScript
source files (`sidebar.js`, `redditheader.js`, `redditfeed.js`, the settings
module and their earlier revisions): pure functions become Lean functions,
the module-level mutable state (`collapsedSections`, `activeStyles`, style
tag references) is passed explicitly, and DOM documents are modelled as
finite trees with light children and optional shadow trees.
-/

namespace REX

/-! ## JavaScript string primitives

`String.prototype.includes` and `String.prototype.toUpperCase` (ASCII range),
as used by the matching code in `collapseSidebarSections` and the mutation
observer callback. -/

/-- Check that `pat` occurs at the start of `s` (helper for `occursIn`). -/
def leadsWith : List Char → List Char → Bool
  | [], _ => true
  | _ :: _, [] => false
  | a :: as, b :: bs => a == b && leadsWith as bs

/-- Check that `pat` occurs contiguously somewhere in `s`; models
`s.includes(pat)` on the underlying character lists. -/
def occursIn (pat s : List Char) : Bool :=
  match s with
  | [] => leadsWith pat []
  | _ :: rest => leadsWith pat s || occursIn pat rest

/-- ASCII uppercase of a single character, as `toUpperCase` acts on the
ASCII range. -/
def upChar (c : Char) : Char :=
  if 97 ≤ c.toNat ∧ c.toNat ≤ 122 then Char.ofNat (c.toNat - 32) else c

/-- Model of `s.toUpperCase()` (ASCII). -/
def jsToUpper (s : String) : String := ⟨s.data.map upChar⟩

/-- Model of `s.includes(sub)`. -/
def jsIncludes (s sub : String) : Bool := occursIn sub.data s.data

/-! ## DOM model

A document is a forest of element nodes.  Each node carries its tag name,
its `id` attribute, whether it has the `open` attribute, its own direct text
content, an optional attached shadow tree (`hasShadow`/`shadow`) and its
light-DOM children.  `DForest` is a bespoke list so that the mutual
recursions below are structural. -/

mutual
inductive DNode : Type where
  | mk (tag idAttr : String) (isOpen : Bool) (text : String)
       (hasShadow : Bool) (shadow : DForest) (children : DForest)
  deriving DecidableEq
inductive DForest : Type where
  | nil
  | cons (n : DNode) (f : DForest)
  deriving DecidableEq
end

/-- Tag name of a node. -/
def DNode.tagOf : DNode → String
  | .mk t _ _ _ _ _ _ => t

/-- Whether the node has an attached (open) shadow root. -/
def DNode.hasShadowRoot : DNode → Bool
  | .mk _ _ _ _ h _ _ => h

/-- The node's shadow tree (meaningful when `hasShadowRoot`). -/
def DNode.shadowOf : DNode → DForest
  | .mk _ _ _ _ _ s _ => s

/-- The node's light-DOM children. -/
def DNode.childrenOf : DNode → DForest
  | .mk _ _ _ _ _ _ c => c

/-- Whether the node carries the `open` attribute. -/
def DNode.openAttr : DNode → Bool
  | .mk _ _ o _ _ _ _ => o

mutual
/-- Model of `node.textContent` for an element: its own text followed by the
text of its light-DOM descendants.  `textContent` does not pierce shadow
roots. -/
def textContentN : DNode → String
  | .mk _ _ _ t _ _ ch => t ++ textContentF ch
/-- Text content of a forest of siblings, in document order. -/
def textContentF : DForest → String
  | .nil => ""
  | .cons n f => textContentN n ++ textContentF f
end

mutual
/-- Model of `querySelector('summary')` scoped to a single subtree: the node
itself if it is a `summary`, else the first `summary` among its light-DOM
descendants in document order.  Shadow trees are not pierced. -/
def firstSummaryN : DNode → Option DNode
  | .mk tag i o t h s ch =>
    if tag = "summary" then some (.mk tag i o t h s ch) else firstSummaryF ch
/-- First `summary` element in a forest, in document order. -/
def firstSummaryF : DForest → Option DNode
  | .nil => none
  | .cons n f =>
    match firstSummaryN n with
    | some m => some m
    | none => firstSummaryF f
end

mutual
/-- Model of `querySelectorAll('details')` scoped to a single subtree: every
`details` element in document order, nested ones included.  Shadow trees are
not pierced. -/
def collectDetailsN : DNode → List DNode
  | .mk tag i o t h s ch =>
    (if tag = "details" then [DNode.mk tag i o t h s ch] else [])
      ++ collectDetailsF ch
/-- All `details` elements of a forest, in document order. -/
def collectDetailsF : DForest → List DNode
  | .nil => []
  | .cons n f => collectDetailsN n ++ collectDetailsF f
end

mutual
/-- Shadow-root discovery for a single visited element, from
`findAllShadowRoots` in `sidebar.js` (and the identical copy in
`redditfeed.js`): when the element has a shadow root, push it and then the
result of the recursive call on the shadow root, then continue with the
element's light-DOM children. -/
def shadowsOfNode : DNode → List DForest
  | .mk _ _ _ _ hasSh sh ch =>
    (if hasSh then sh :: walkShadows sh else []) ++ walkShadows ch
/-- The tree-walker loop of `findAllShadowRoots` over a forest of siblings:
the walker yields every element under the starting root in document order
without descending into shadow trees; the recursion into shadow trees is
explicit in the source. -/
def walkShadows : DForest → List DForest
  | .nil => []
  | .cons n rest => shadowsOfNode n ++ walkShadows rest
end

/-- Model of `findAllShadowRoots(root)`: the `TreeWalker` starts below
`root`, so only descendants of `root` are visited. -/
def findAllShadowRoots (root : DNode) : List DForest :=
  walkShadows root.childrenOf

/-- Occurrence of an element in the light DOM of a forest (the elements a
`TreeWalker` rooted just above the forest would visit). -/
inductive LightDesc : DForest → DNode → Prop where
  | head (n : DNode) (f : DForest) : LightDesc (.cons n f) n
  | tail (n m : DNode) (f : DForest) :
      LightDesc f m → LightDesc (.cons n f) m
  | child (n m : DNode) (f : DForest) :
      LightDesc n.childrenOf m → LightDesc (.cons n f) m

/-- A shadow root reachable from a forest: either attached to a light-DOM
element of the forest, or reachable from inside such a shadow root. -/
inductive ShadowReach : DForest → DForest → Prop where
  | direct (f : DForest) (n : DNode) :
      LightDesc f n → n.hasShadowRoot = true → ShadowReach f n.shadowOf
  | nested (f s t : DForest) :
      ShadowReach f s → ShadowReach s t → ShadowReach f t

/-- A document whose shadow roots are nested `n` levels deep: each level is
a host element whose shadow tree contains the next level. -/
def nestedChain : Nat → DNode
  | 0 => .mk "div" "" false "" false .nil .nil
  | n + 1 => .mk "div" "" false "" true (.cons (nestedChain n) .nil) .nil

/-! ## Sidebar section collapsing (`sidebar.js` lines 106-192, 256-309)

The collapse loop reads, for each `details` element, the `textContent` of
its first `summary` descendant and its `open` attribute, and may remove the
`open` attribute.  `DetailsView` is that read/write interface of one
`details` element. -/

/-- View of one `details` element as used by `collapseSidebarSections`:
`summaryText` is `none` when `details.querySelector('summary')` finds
nothing (the loop then skips the element), otherwise the summary's
`textContent`; `isOpen` is the `open` attribute. -/
structure DetailsView where
  summaryText : Option String
  isOpen : Bool
  deriving DecidableEq

/-- The view of a `details` node extracted from the tree: the `textContent`
of the first `summary` among its descendants (the source applies
`|| ''` to the text, which is the identity on a present summary's string),
and its `open` attribute. -/
def detailsView (n : DNode) : DetailsView :=
  { summaryText := (firstSummaryF n.childrenOf).map textContentN
    isOpen := n.openAttr }

/-- The `SECTIONS_TO_COLLAPSE` constant of `sidebar.js`. -/
def SECTIONS_TO_COLLAPSE : List String :=
  ["GAMES ON REDDIT", "MODERATION", "CUSTOM FEEDS",
   "RECENT", "COMMUNITIES", "RESOURCES"]

/-- The match test of the inner loop of `collapseSidebarSections`:
`summaryText.toUpperCase().includes(sectionName.toUpperCase())`. -/
def sectionMatches (summaryText sectionName : String) : Bool :=
  jsIncludes (jsToUpper summaryText) (jsToUpper sectionName)

/-- Whether a `details` view matches a section name: a present summary whose
text contains the section name, case-insensitively. -/
def matchesSection (d : DetailsView) (sectionName : String) : Bool :=
  match d.summaryText with
  | none => false
  | some t => sectionMatches t sectionName

/-- The first section name of `SECTIONS_TO_COLLAPSE` that the summary text
matches; the inner `for` loop of `collapseSidebarSections` acts on exactly
this section and then `break`s. -/
def firstMatch (summaryText : String) : Option String :=
  SECTIONS_TO_COLLAPSE.find? (fun s => sectionMatches summaryText s)

/-- The first matching section name of a `details` view (`none` when there
is no summary or no section matches). -/
def firstMatchD (d : DetailsView) : Option String :=
  match d.summaryText with
  | none => none
  | some t => firstMatch t

/-- Model of `collapseSidebarSections` (`sidebar.js` lines 106-166) acting
on the gathered list of `details` elements: threads the `collapsedSections`
set (as a list of section names), returns the updated set, the updated
`details` elements, and `newlyCollapsedCount`.  For each element: skip it
when it has no summary; otherwise act on the first matching section name:
if that name is already in the set, `break` without touching the element;
else remove the `open` attribute when present (counting it) and record the
name in the set either way. -/
def collapseSidebarSections (collapsed : List String) :
    List DetailsView → List String × List DetailsView × Nat
  | [] => (collapsed, [], 0)
  | d :: ds =>
    match d.summaryText with
    | none =>
      let r := collapseSidebarSections collapsed ds
      (r.1, d :: r.2.1, r.2.2)
    | some t =>
      match firstMatch t with
      | none =>
        let r := collapseSidebarSections collapsed ds
        (r.1, d :: r.2.1, r.2.2)
      | some name =>
        if name ∈ collapsed then
          let r := collapseSidebarSections collapsed ds
          (r.1, d :: r.2.1, r.2.2)
        else if d.isOpen then
          let r := collapseSidebarSections (collapsed ++ [name]) ds
          (r.1, { d with isOpen := false } :: r.2.1, r.2.2 + 1)
        else
          let r := collapseSidebarSections (collapsed ++ [name]) ds
          (r.1, d :: r.2.1, r.2.2)

/-- The `details` elements gathered by `collapseSidebarSections` from a
document: first `document.querySelectorAll('details')`, then, for each
discovered shadow root in discovery order, its own
`querySelectorAll('details')`. -/
def gatherDetails (doc : DForest) : List DetailsView :=
  (collectDetailsF doc
    ++ ((walkShadows doc).map collectDetailsF).flatten).map detailsView

/-- The convergence test of `attemptCollapse`:
`SECTIONS_TO_COLLAPSE.every(section => collapsedSections.has(section))`. -/
def allSectionsFound (collapsed : List String) : Bool :=
  SECTIONS_TO_COLLAPSE.all (fun s => collapsed.contains s)

/-- Default retry budget of `attemptCollapse` (`retries = 30`). -/
def DEFAULT_RETRIES : Nat := 30

/-- Default retry delay of `attemptCollapse` (`delay = 600` ms). -/
def DEFAULT_DELAY : Nat := 600

/-- Retry budget of the restarted burst in the mutation observer callback
(`attemptCollapse(5, 200)`). -/
def OBSERVER_RETRIES : Nat := 5

/-- Retry delay of the restarted burst in the mutation observer callback. -/
def OBSERVER_DELAY : Nat := 200

/-- Model of `attemptCollapse` (`sidebar.js` lines 171-192).  `docs k` is
the list of `details` views the document presents at the `k`-th scan (the
document mutates freely between timer-delayed attempts), `collapsed` the
`collapsedSections` state, `maskPresent` whether the `rex-loader-hide`
style element is in the document.  Returns the final `collapsedSections`,
whether the mask is still present, and the number of scans performed.  Each
call scans once; on convergence or on an exhausted budget it removes the
mask (if present) and stops, otherwise it re-runs with `retries - 1`. -/
def attemptCollapse (docs : Nat → List DetailsView) (delay : Nat) :
    Nat → Nat → List String → Bool → List String × Bool × Nat
  | retries, k, collapsed, _maskPresent =>
    let c := (collapseSidebarSections collapsed (docs k)).1
    if allSectionsFound c then (c, false, 1)
    else
      match retries with
      | 0 => (c, false, 1)
      | r + 1 =>
        let rec' := attemptCollapse docs delay r (k + 1) c _maskPresent
        (rec'.1, rec'.2.1, rec'.2.2 + 1)

/-- An entry of `mutation.addedNodes` as inspected by the observer callback:
`isElement` models `node.nodeType === Node.ELEMENT_NODE`, `node` the added
node itself. -/
structure AddedNode where
  isElement : Bool
  node : DNode
  deriving DecidableEq

/-- The per-node test of the observer callback (`sidebar.js` lines
276-279): some target section label occurs, case-insensitively, in the
added node's `textContent`. -/
def hasTargetSection (n : DNode) : Bool :=
  SECTIONS_TO_COLLAPSE.any (fun s => sectionMatches (textContentN n) s)

/-- The `shouldCheckCollapse` flag computed by the observer callback over a
mutation batch (each batch entry contributes its `addedNodes`): set when
some added element node's text content contains a target section label. -/
def observerShouldCheck (batch : List (List AddedNode)) : Bool :=
  batch.any (fun added =>
    added.any (fun a => a.isElement && hasTargetSection a.node))

/-- Model of the collapse-restart portion of the mutation observer callback
(`sidebar.js` lines 258-298): when `shouldCheckCollapse` is set, clear
`collapsedSections` entirely and restart `attemptCollapse` with the burst
budget `(5, 200)`; otherwise leave the set alone and schedule nothing.
Returns the `collapsedSections` state handed to the restarted loop and the
`(retries, delay)` budget of the restart, if any.  (The style
re-application the callback also performs acts on the disjoint style state
and is modelled separately by `applyStylesToRoot`.) -/
def observerCollapseRestart (batch : List (List AddedNode))
    (collapsed : List String) : List String × Option (Nat × Nat) :=
  if observerShouldCheck batch then
    ([], some (OBSERVER_RETRIES, OBSERVER_DELAY))
  else
    (collapsed, none)

/-! ## Style reconciliation (`sidebar.js` lines 55-100) -/

/-- The three feature keys of the `activeStyles` object in `sidebar.js`. -/
inductive StyleKey : Type where
  | popular
  | explore
  | community
  deriving DecidableEq

/-- The `activeStyles` state of `sidebar.js` (lines 10-14). -/
structure ActiveStyles where
  popular : Bool
  explore : Bool
  community : Bool
  deriving DecidableEq

/-- The initial `activeStyles` values (all features off). -/
def initialActiveStyles : ActiveStyles := ⟨false, false, false⟩

/-- Lookup `activeStyles[rule.key]`. -/
def activeFor (a : ActiveStyles) : StyleKey → Bool
  | .popular => a.popular
  | .explore => a.explore
  | .community => a.community

/-- Turn one feature flag off, leaving the others alone. -/
def turnOff (a : ActiveStyles) : StyleKey → ActiveStyles
  | .popular => { a with popular := false }
  | .explore => { a with explore := false }
  | .community => { a with community := false }

/-- One entry of the `rules` table inside `applyStylesToRoot`. -/
structure StyleRule where
  key : StyleKey
  sid : String
  selector : String
  deriving DecidableEq

/-- The CSS text built for a hiding style element:
`` `${selector} { display: none !important; }` ``. -/
def hideCss (selector : String) : String :=
  selector ++ " \x7b display: none !important; \x7d"

/-- The CSS text of a rule's injected style element. -/
def cssOf (r : StyleRule) : String :=
  hideCss r.selector

/-- The `popular` entry of the `rules` table of `applyStylesToRoot`. -/
def rulePopular : StyleRule :=
  ⟨.popular, "rex-hide-popular-style",
    "a[href*=\"/r/popular\"], #popular-posts"⟩

/-- The `explore` entry of the `rules` table of `applyStylesToRoot`. -/
def ruleExplore : StyleRule :=
  ⟨.explore, "rex-hide-explore-style",
    "a[href=\"/explore/\"], #explore-communities"⟩

/-- The `community` entry of the `rules` table of `applyStylesToRoot`. -/
def ruleCommunity : StyleRule :=
  ⟨.community, "rex-hide-create-community-style",
    ".left-nav-create-community-button, a[href*=\"/subreddits/create\"], #create-community-button"⟩

/-- The `rules` table of `applyStylesToRoot` in `sidebar.js`. -/
def sidebarRules : List StyleRule :=
  [rulePopular, ruleExplore, ruleCommunity]

/-- A style element living in a root: its `id` attribute and its CSS text. -/
structure StyleElem where
  sid : String
  css : String
  deriving DecidableEq

/-- A document or shadow root, reduced to the list of style elements it
holds, in document order. -/
structure Root where
  styles : List StyleElem
  deriving DecidableEq

/-- Model of `root.getElementById(id)` (and of the
`root.querySelector('#id')` branch for shadow roots): the first element
with that `id`, in document order. -/
def getById (l : List StyleElem) (i : String) : Option StyleElem :=
  l.find? (fun e => e.sid == i)

/-- Model of `existingStyle.remove()` when `existingStyle` was found by
`getById`: remove the first element with that `id`. -/
def removeById : List StyleElem → String → List StyleElem
  | [], _ => []
  | e :: rest, i => if e.sid == i then rest else e :: removeById rest i

/-- One iteration of the `rules.forEach` body of `applyStylesToRoot`:
`shouldHide` is the rule's flag and `existing` the style element found
under the rule's id; insert the rule's style exactly when the flag is on
and no such element exists; remove it exactly when the flag is off and one
exists.  The `Nat` component counts the DOM writes performed. -/
def applyRule (act : ActiveStyles) (st : Root × Nat) (r : StyleRule) :
    Root × Nat :=
  if activeFor act r.key then
    match getById st.1.styles r.sid with
    | none => (⟨st.1.styles ++ [⟨r.sid, cssOf r⟩]⟩, st.2 + 1)
    | some _ => st
  else
    match getById st.1.styles r.sid with
    | some _ => (⟨removeById st.1.styles r.sid⟩, st.2 + 1)
    | none => st

/-- Model of `applyStylesToRoot(root)` (`sidebar.js` lines 55-87): run the
rule table over the root; second component counts DOM writes. -/
def applyStylesToRoot (act : ActiveStyles) (root : Root) : Root × Nat :=
  sidebarRules.foldl (applyRule act) (root, 0)

/-! ## Header toggles (`redditheader.js` lines 31-48) -/

/-- The `tagRef` wrapper of `redditheader.js` (e.g. `adState`,
`createState`): a tracked reference to the injected style element, or
`null`. -/
structure TagRef where
  tag : Option StyleElem
  deriving DecidableEq

/-- Remove the first occurrence of `e` from a style list; models
`element.remove()` for a tracked element (a tracked element occurs at most
once, so removing the first occurrence equals identity-based removal, and
removal of a detached element is a no-op). -/
def eraseStyle : List StyleElem → StyleElem → List StyleElem
  | [], _ => []
  | x :: rest, e => if x == e then rest else x :: eraseStyle rest e

/-- Model of `toggleVisibility(shouldHide, selector, styleId, tagRef,
logName)` from `redditheader.js`: when hiding and no tag is tracked, create
the style element, append it to `document.head` and track it; when showing
and a tag is tracked, remove it from the document and clear the reference.
Returns the new reference, the new head contents, and the number of DOM
writes. -/
def toggleVisibility (shouldHide : Bool) (selector styleId : String)
    (tagRef : TagRef) (headStyles : List StyleElem) :
    TagRef × List StyleElem × Nat :=
  if shouldHide then
    match tagRef.tag with
    | none =>
      (⟨some ⟨styleId, hideCss selector⟩⟩,
       headStyles ++ [⟨styleId, hideCss selector⟩], 1)
    | some _ => (tagRef, headStyles, 0)
  else
    match tagRef.tag with
    | some s => (⟨none⟩, eraseStyle headStyles s, 1)
    | none => (tagRef, headStyles, 0)

/-! ## Exception-aware reconciliation (for the error-handling claim)

`applyStylesToRoot` iterates its rule table with `rules.forEach(...)` and
contains no `try`/`catch`: under JavaScript semantics an exception thrown
by a DOM write inside the callback propagates and aborts the remaining
iterations.  `RootE.writeFails` abstracts a root whose DOM writes throw; a
merely detached root is one with `writeFails = false`, since DOM writes on
a detached root succeed (they mutate the detached subtree). -/

structure RootE where
  styles : List StyleElem
  writeFails : Bool
  deriving DecidableEq

/-- One `rules.forEach` iteration under exception semantics: performing a
DOM write on a root whose writes throw raises, and the absence of any
`try`/`catch` in the source means the error propagates. -/
def applyRuleE (act : ActiveStyles) (st : RootE × Nat) (r : StyleRule) :
    Except String (RootE × Nat) :=
  if activeFor act r.key then
    match getById st.1.styles r.sid with
    | none =>
      if st.1.writeFails then .error "DOM write failed"
      else .ok (⟨st.1.styles ++ [⟨r.sid, cssOf r⟩], st.1.writeFails⟩, st.2 + 1)
    | some _ => .ok st
  else
    match getById st.1.styles r.sid with
    | some _ =>
      if st.1.writeFails then .error "DOM write failed"
      else .ok (⟨removeById st.1.styles r.sid, st.1.writeFails⟩, st.2 + 1)
    | none => .ok st

/-- `applyStylesToRoot` under exception semantics: the `forEach` loop runs
each rule in order and an uncaught exception aborts the rest of the pass. -/
def applyStylesToRootE (act : ActiveStyles) (root : RootE) :
    Except String (RootE × Nat) :=
  sidebarRules.foldlM (applyRuleE act) (root, 0)

/-! ## Settings bridge fallback (settings module `loadSettings`,
`saveSetting`; `sidebar.js` `initLinkHiding`, lines 197-227) -/

/-- Availability of the extension storage API, from the guard
`typeof chrome !== 'undefined' && chrome.storage && chrome.storage.sync`. -/
structure ChromeEnv where
  hasChrome : Bool
  hasStorage : Bool
  hasSync : Bool
  items : List (String × Bool)
  deriving DecidableEq

/-- The conjunction the source guards every storage access with. -/
def storageAvailable (env : ChromeEnv) : Bool :=
  env.hasChrome && env.hasStorage && env.hasSync

/-- A storage operation performed against `chrome.storage.sync`. -/
inductive StorageOp : Type where
  | get
  | set (key : String)
  deriving DecidableEq

/-- The `currentSettings` record of the settings module. -/
structure SettingsState where
  rex_hide_ads : Bool
  rex_hide_create : Bool
  rex_hide_ask : Bool
  rex_show_subreddit_indicator : Bool
  rex_sidebar_mode : String
  rex_sidebar_collapse : Bool
  deriving DecidableEq

/-- The built-in defaults of `currentSettings`. -/
def defaultSettings : SettingsState :=
  ⟨false, false, false, true, "Show", false⟩

/-- Values present in `chrome.storage.sync` for the settings module's keys
(absent keys fall back to the defaults passed to `get`). -/
structure StoredSettings where
  rex_hide_ads : Option Bool
  rex_hide_create : Option Bool
  rex_hide_ask : Option Bool
  rex_show_subreddit_indicator : Option Bool
  rex_sidebar_mode : Option String
  rex_sidebar_collapse : Option Bool
  deriving DecidableEq

/-- The spread merge `{ ...currentSettings, ...items }` where `items` is
the result of `chrome.storage.sync.get(currentSettings, ...)`. -/
def mergeSettings (cur : SettingsState) (st : StoredSettings) :
    SettingsState where
  rex_hide_ads := st.rex_hide_ads.getD cur.rex_hide_ads
  rex_hide_create := st.rex_hide_create.getD cur.rex_hide_create
  rex_hide_ask := st.rex_hide_ask.getD cur.rex_hide_ask
  rex_show_subreddit_indicator :=
    st.rex_show_subreddit_indicator.getD cur.rex_show_subreddit_indicator
  rex_sidebar_mode := st.rex_sidebar_mode.getD cur.rex_sidebar_mode
  rex_sidebar_collapse :=
    st.rex_sidebar_collapse.getD cur.rex_sidebar_collapse

/-- Reading `chrome.storage.sync` without the availability guard throws a
`TypeError`; with the guard present the source never reaches this error. -/
def storageGet (env : ChromeEnv) (st : StoredSettings) :
    Except String StoredSettings :=
  if storageAvailable env then .ok st
  else .error "TypeError: chrome.storage is undefined"

/-- Model of `loadSettings` from the settings module: when the storage API
is available, resolve with the stored values merged over the defaults;
otherwise resolve with the current (default) settings without touching
storage.  Also returns the list of storage operations performed. -/
def loadSettings (env : ChromeEnv) (st : StoredSettings)
    (cur : SettingsState) :
    Except String (SettingsState × List StorageOp) :=
  if storageAvailable env then do
    let items ← storageGet env st
    .ok (mergeSettings cur items, [StorageOp.get])
  else .ok (cur, [])

/-- Model of `initLinkHiding` from `sidebar.js` (lines 197-227): when the
storage API is available, read the three sidebar keys (a missing key is
`undefined` and `!!undefined` is `false`) and update `activeStyles`;
otherwise do nothing at all.  Returns the resulting `activeStyles` and the
storage operations performed. -/
def initLinkHiding (env : ChromeEnv) (act : ActiveStyles) :
    ActiveStyles × List StorageOp :=
  if storageAvailable env then
    ({ popular := ((env.items.lookup "rex_hide_popular").getD false)
       explore := ((env.items.lookup "rex_hide_explore").getD false)
       community :=
         ((env.items.lookup "rex_hide_start_community").getD false) },
     [StorageOp.get])
  else (act, [])

/-- The storage operations performed by `saveSetting(key, value)` of the
settings module: a `set` when the storage API is available, nothing
otherwise (the in-memory update happens regardless). -/
def saveSettingOps (env : ChromeEnv) (key : String) : List StorageOp :=
  if storageAvailable env then [StorageOp.set key] else []

/-- The `body` of a document holding a nested-shadow chain of depth `n` as
its only child. -/
def chainBody (n : Nat) : DNode :=
  .mk "body" "" false "" false .nil (.cons (nestedChain n) .nil)

/-! ## Lemmas: shadow-root traversal -/

theorem walkShadows_cons (n : DNode) (f : DForest) :
    walkShadows (.cons n f) = shadowsOfNode n ++ walkShadows f := by
  simp [walkShadows]

theorem shadowsOfNode_eq (n : DNode) :
    shadowsOfNode n =
      (if n.hasShadowRoot then n.shadowOf :: walkShadows n.shadowOf else [])
        ++ walkShadows n.childrenOf := by
  cases n with
  | mk tag i o t h s ch =>
    simp [shadowsOfNode, DNode.hasShadowRoot, DNode.shadowOf,
      DNode.childrenOf]

/-- A light-DOM element's shadow root, and everything the traversal finds
inside it, appear in the traversal of the enclosing forest. -/
theorem lightDesc_shadow_mem {f : DForest} {n : DNode}
    (hd : LightDesc f n) (hs : n.hasShadowRoot = true) :
    n.shadowOf ∈ walkShadows f ∧
      ∀ x ∈ walkShadows n.shadowOf, x ∈ walkShadows f := by
  induction hd with
  | head m f' =>
    rw [walkShadows_cons, shadowsOfNode_eq, hs]
    constructor
    · simp
    · intro x hx
      simp [hx]
  | tail m₁ m₂ f' _ ih =>
    rcases ih hs with ⟨h1, h2⟩
    rw [walkShadows_cons]
    exact ⟨List.mem_append_right _ h1,
      fun x hx => List.mem_append_right _ (h2 x hx)⟩
  | child m₁ m₂ f' _ ih =>
    rcases ih hs with ⟨h1, h2⟩
    rw [walkShadows_cons, shadowsOfNode_eq]
    constructor
    · exact List.mem_append_left _ (List.mem_append_right _ h1)
    · intro x hx
      exact List.mem_append_left _ (List.mem_append_right _ (h2 x hx))

/-- Every reachable shadow root is discovered, together with everything the
traversal finds inside it. -/
theorem shadowReach_mem {f s : DForest} (h : ShadowReach f s) :
    s ∈ walkShadows f ∧ ∀ x ∈ walkShadows s, x ∈ walkShadows f := by
  induction h with
  | direct f' n hd hs => exact lightDesc_shadow_mem hd hs
  | nested f' s' t' _ _ ih1 ih2 =>
    rcases ih1 with ⟨h1, h2⟩
    rcases ih2 with ⟨h3, h4⟩
    exact ⟨h2 _ h3, fun x hx => h2 x (h4 x hx)⟩

theorem walkShadows_nestedChain (n : Nat) :
    (walkShadows (.cons (nestedChain n) .nil)).length = n := by
  induction n with
  | zero => simp [walkShadows, shadowsOfNode, nestedChain]
  | succ k ih =>
    rw [walkShadows_cons] at ih ⊢
    simp only [nestedChain, shadowsOfNode, walkShadows, if_pos,
      List.append_nil, List.nil_append, List.length_cons] at ih ⊢
    omega

/-! ## Lemmas: section collapse run -/

/-- Whether position-wise `pre` was collapsed into `post` on account of
section `name`: it was open, is now closed, and `name` is its first
matching section. -/
def collapsedFor (name : String) (pre post : DetailsView) : Bool :=
  pre.isOpen && !post.isOpen && (firstMatchD pre == some name)

/-- Number of elements collapsed for `name` between the input and output
element lists of one run. -/
def countCollapsedFor (name : String) (pre post : List DetailsView) : Nat :=
  (pre.zip post).countP (fun p => collapsedFor name p.1 p.2)

theorem collapse_mem_mono (ds : List DetailsView) :
    ∀ (c : List String) (x : String), x ∈ c →
      x ∈ (collapseSidebarSections c ds).1 := by
  induction ds with
  | nil => intro c x hx; simpa [collapseSidebarSections] using hx
  | cons d ds ih =>
    intro c x hx
    simp only [collapseSidebarSections]
    split
    · exact ih c x hx
    · split
      · exact ih c x hx
      · split
        · exact ih c x hx
        · split
          · exact ih _ x (List.mem_append_left _ hx)
          · exact ih _ x (List.mem_append_left _ hx)

/-- Once a section name is in the tracked set, a run leaves every element
whose first matching section is that name untouched. -/
theorem collapse_sat_untouched (ds : List DetailsView) :
    ∀ (c : List String) (name : String), name ∈ c →
      List.Forall₂ (fun d d' => firstMatchD d = some name → d' = d)
        ds (collapseSidebarSections c ds).2.1 := by
  induction ds with
  | nil => intro c name _; simp [collapseSidebarSections]
  | cons d ds ih =>
    intro c name hc
    simp only [collapseSidebarSections]
    split
    · exact List.Forall₂.cons (fun _ => rfl) (ih c name hc)
    · rename_i t hsum
      split
      · exact List.Forall₂.cons (fun _ => rfl) (ih c name hc)
      · rename_i m hfm
        split
        · exact List.Forall₂.cons (fun _ => rfl) (ih c name hc)
        · rename_i hm
          have hne : firstMatchD d = some m := by
            simp [firstMatchD, hsum, hfm]
          split
          · refine List.Forall₂.cons ?_
              (ih _ name (List.mem_append_left _ hc))
            intro hfd
            rw [hne, Option.some.injEq] at hfd
            exact absurd (hfd ▸ hc) hm
          · exact List.Forall₂.cons (fun _ => rfl)
              (ih _ name (List.mem_append_left _ hc))
/-- Any element whose first matching section is `name` forces `name` into
the tracked set by the end of the run. -/
theorem collapse_mem_of_witness (ds : List DetailsView) :
    ∀ (c : List String) (name : String) (d : DetailsView), d ∈ ds →
      firstMatchD d = some name → name ∈ (collapseSidebarSections c ds).1 := by
  induction ds with
  | nil => intro c name d hd; cases hd
  | cons d0 ds ih =>
    intro c name d hd hfd
    rcases List.mem_cons.mp hd with rfl | hd'
    · obtain ⟨t, hsum, hfm⟩ :
          ∃ t, d.summaryText = some t ∧ firstMatch t = some name := by
        unfold firstMatchD at hfd
        cases hsum : d.summaryText with
        | none => rw [hsum] at hfd; exact Option.noConfusion hfd
        | some t => rw [hsum] at hfd; exact ⟨t, rfl, hfd⟩
      simp only [collapseSidebarSections]
      split
      · rename_i hnone
        rw [hsum] at hnone; cases hnone
      · rename_i t2 hsum2
        rw [hsum] at hsum2
        cases hsum2
        split
        · rename_i hfm2
          rw [hfm] at hfm2; cases hfm2
        · rename_i m hfm2
          rw [hfm] at hfm2
          cases hfm2
          split
          · rename_i hm; exact collapse_mem_mono ds c name hm
          · split
            · exact collapse_mem_mono ds _ name
                (List.mem_append_right _ (List.mem_singleton.mpr rfl))
            · exact collapse_mem_mono ds _ name
                (List.mem_append_right _ (List.mem_singleton.mpr rfl))
    · simp only [collapseSidebarSections]
      split
      · exact ih c name d hd' hfd
      · split
        · exact ih c name d hd' hfd
        · split
          · exact ih c name d hd' hfd
          · split
            · exact ih _ name d hd' hfd
            · exact ih _ name d hd' hfd

/-- Positions related by the untouched-when-satisfied relation contribute
no collapse for `name`. -/
theorem countCollapsedFor_zero_of_untouched {name : String}
    {pre post : List DetailsView}
    (h : List.Forall₂ (fun d d' => firstMatchD d = some name → d' = d)
      pre post) :
    countCollapsedFor name pre post = 0 := by
  unfold countCollapsedFor
  induction h with
  | nil => rfl
  | cons hrel htail ihh =>
    rename_i d d' ds' es'
    rw [List.zip_cons_cons, List.countP_cons]
    rw [ihh]
    by_cases hfd : firstMatchD d = some name
    · have hde : d' = d := hrel hfd
      subst hde
      simp [collapsedFor]
    · simp [collapsedFor, hfd]

/-- When `name` is already tracked, a run collapses nothing for `name`. -/
theorem collapse_count_zero (ds : List DetailsView) :
    ∀ (c : List String) (name : String), name ∈ c →
      countCollapsedFor name ds (collapseSidebarSections c ds).2.1 = 0 := by
  intro c name hc
  exact countCollapsedFor_zero_of_untouched
    (collapse_sat_untouched ds c name hc)

/-- A single run collapses at most one element per section name. -/
theorem collapse_count_le_one (ds : List DetailsView) :
    ∀ (c : List String) (name : String),
      countCollapsedFor name ds (collapseSidebarSections c ds).2.1 ≤ 1 := by
  induction ds with
  | nil => intro c name; simp [countCollapsedFor, collapseSidebarSections]
  | cons d ds ih =>
    intro c name
    simp only [collapseSidebarSections]
    split
    · unfold countCollapsedFor
      rw [List.zip_cons_cons, List.countP_cons]
      have hdd : collapsedFor name d d = false := by simp [collapsedFor]
      rw [hdd]
      simpa [countCollapsedFor] using ih c name
    · rename_i t hsum
      split
      · unfold countCollapsedFor
        rw [List.zip_cons_cons, List.countP_cons]
        have hdd : collapsedFor name d d = false := by simp [collapsedFor]
        rw [hdd]
        simpa [countCollapsedFor] using ih c name
      · rename_i m hfm
        split
        · unfold countCollapsedFor
          rw [List.zip_cons_cons, List.countP_cons]
          have hdd : collapsedFor name d d = false := by simp [collapsedFor]
          rw [hdd]
          simpa [countCollapsedFor] using ih c name
        · rename_i hm
          have hne : firstMatchD d = some m := by
            simp [firstMatchD, hsum, hfm]
          split
          · rename_i ho
            unfold countCollapsedFor
            rw [List.zip_cons_cons, List.countP_cons]
            by_cases hnm : m = name
            · subst hnm
              have hz := collapse_count_zero ds (c ++ [m]) m
                (List.mem_append_right _ (List.mem_singleton.mpr rfl))
              unfold countCollapsedFor at hz
              rw [hz]
              simp [collapsedFor, ho, hne]
            · have hdd : collapsedFor name d
                  { d with isOpen := false } = false := by
                simp [collapsedFor, hne, hnm]
              rw [hdd]
              simpa [countCollapsedFor] using ih (c ++ [m]) name
          · unfold countCollapsedFor
            rw [List.zip_cons_cons, List.countP_cons]
            have hdd : collapsedFor name d d = false := by simp [collapsedFor]
            rw [hdd]
            simpa [countCollapsedFor] using ih (c ++ [m]) name

/-- Shape of the per-element change of one run: an element is either left
untouched, or it was open, its first matching section exists, and exactly
its `open` attribute was removed. -/
theorem collapse_change_shape (ds : List DetailsView) :
    ∀ (c : List String),
      List.Forall₂ (fun d d' => d' = d ∨
          (∃ name, firstMatchD d = some name ∧ d.isOpen = true ∧
            d' = { d with isOpen := false }))
        ds (collapseSidebarSections c ds).2.1 := by
  induction ds with
  | nil => intro c; simp [collapseSidebarSections]
  | cons d ds ih =>
    intro c
    simp only [collapseSidebarSections]
    split
    · exact List.Forall₂.cons (Or.inl rfl) (ih c)
    · rename_i t hsum
      split
      · exact List.Forall₂.cons (Or.inl rfl) (ih c)
      · rename_i m hfm
        have hne : firstMatchD d = some m := by
          simp [firstMatchD, hsum, hfm]
        split
        · exact List.Forall₂.cons (Or.inl rfl) (ih c)
        · split
          · rename_i ho
            exact List.Forall₂.cons (Or.inr ⟨m, hne, ho, rfl⟩) (ih _)
          · exact List.Forall₂.cons (Or.inl rfl) (ih _)

/-- A closed element whose first match is an untracked `name` is left
untouched while `name` is still recorded (no DOM write, still satisfied):
this is the `else` branch of the open-check. -/
theorem collapse_closed_recorded (ds : List DetailsView) :
    ∀ (c : List String) (name : String) (d : DetailsView), d ∈ ds →
      firstMatchD d = some name → d.isOpen = false →
      name ∈ (collapseSidebarSections c ds).1 ∧
        List.Forall₂ (fun e e' => e = d → e' = e)
          ds (collapseSidebarSections c ds).2.1 := by
  intro c name d hd hfd ho
  refine ⟨collapse_mem_of_witness ds c name d hd hfd, ?_⟩
  have h := collapse_change_shape ds c
  refine h.imp ?_
  intro e e' he hed
  subst hed
  rcases he with rfl | ⟨n2, _, ho2, _⟩
  · rfl
  · rw [ho] at ho2; cases ho2

/-! ## Lemmas: convergence loop -/

/-- The convergence loop always ends with the mask gone, performs at most
`retries + 1` scans, and stops either converged or with the budget
exhausted. -/
theorem attemptCollapse_spec (docs : Nat → List DetailsView) (delay : Nat) :
    ∀ (retries k : Nat) (c : List String) (mask : Bool),
      (attemptCollapse docs delay retries k c mask).2.1 = false ∧
      (attemptCollapse docs delay retries k c mask).2.2 ≤ retries + 1 ∧
      (allSectionsFound (attemptCollapse docs delay retries k c mask).1
          = true ∨
        (attemptCollapse docs delay retries k c mask).2.2 = retries + 1) := by
  intro retries
  induction retries with
  | zero =>
    intro k c mask
    rw [attemptCollapse]
    split
    · rename_i h; exact ⟨rfl, by dsimp only; omega, Or.inl h⟩
    · exact ⟨rfl, by dsimp only; omega, Or.inr rfl⟩
  | succ r ih =>
    intro k c mask
    rw [attemptCollapse]
    split
    · rename_i h; exact ⟨rfl, by dsimp only; omega, Or.inl h⟩
    · rcases ih (k + 1) ((collapseSidebarSections c (docs k)).1) mask with
        ⟨h1, h2, h3⟩
      refine ⟨h1, by dsimp only; omega, ?_⟩
      rcases h3 with h3 | h3
      · exact Or.inl h3
      · exact Or.inr (by dsimp only; omega)

/-! ## Lemmas: style reconciliation -/

/-- Number of style elements with a given `id` in a root. -/
def countId (l : List StyleElem) (i : String) : Nat :=
  l.countP (fun e => e.sid == i)

/-- A rule is settled in a root when the presence of its style element
agrees with its flag; `applyRule` on a settled rule writes nothing. -/
def ruleSettled (act : ActiveStyles) (l : List StyleElem)
    (r : StyleRule) : Prop :=
  (activeFor act r.key = true → (getById l r.sid).isSome = true) ∧
    (activeFor act r.key = false → getById l r.sid = none)

theorem countId_nil (i : String) : countId [] i = 0 := rfl

theorem countId_cons (e : StyleElem) (rest : List StyleElem) (i : String) :
    countId (e :: rest) i
      = countId rest i + (if e.sid == i then 1 else 0) := by
  unfold countId
  rw [List.countP_cons]

theorem getById_cons_pos {e : StyleElem} {i : String}
    (h : (e.sid == i) = true) (l : List StyleElem) :
    getById (e :: l) i = some e := by
  simp [getById, List.find?_cons_of_pos, h]

theorem getById_cons_neg {e : StyleElem} {i : String}
    (h : (e.sid == i) = false) (l : List StyleElem) :
    getById (e :: l) i = getById l i := by
  simp [getById, List.find?_cons_of_neg, h]

theorem getById_eq_none_of_countId_zero {l : List StyleElem} {i : String}
    (h : countId l i = 0) : getById l i = none := by
  induction l with
  | nil => rfl
  | cons e rest ih =>
    rw [countId_cons] at h
    by_cases he : (e.sid == i) = true
    · rw [he] at h; simp at h
    · rw [getById_cons_neg (by simpa using he)]
      exact ih (by omega)

theorem countId_eq_zero_of_getById_none {l : List StyleElem} {i : String}
    (h : getById l i = none) : countId l i = 0 := by
  induction l with
  | nil => rfl
  | cons e rest ih =>
    rw [countId_cons]
    by_cases he : (e.sid == i) = true
    · rw [getById_cons_pos he] at h; cases h
    · rw [getById_cons_neg (by simpa using he)] at h
      rw [if_neg he, Nat.add_zero]
      exact ih h

theorem getById_append_ne {l : List StyleElem} {e : StyleElem} {i : String}
    (h : (e.sid == i) = false) :
    getById (l ++ [e]) i = getById l i := by
  induction l with
  | nil => simp [getById, List.find?, h]
  | cons x rest ih =>
    by_cases hx : (x.sid == i) = true
    · rw [List.cons_append, getById_cons_pos hx, getById_cons_pos hx]
    · rw [List.cons_append, getById_cons_neg (by simpa using hx),
        getById_cons_neg (by simpa using hx)]
      exact ih

theorem getById_append_self {l : List StyleElem} {e : StyleElem}
    {i : String} (hnone : getById l i = none) (h : (e.sid == i) = true) :
    getById (l ++ [e]) i = some e := by
  induction l with
  | nil => simp [getById, List.find?, h]
  | cons x rest ih =>
    by_cases hx : (x.sid == i) = true
    · rw [getById_cons_pos hx] at hnone; cases hnone
    · rw [List.cons_append, getById_cons_neg (by simpa using hx)]
      rw [getById_cons_neg (by simpa using hx)] at hnone
      exact ih hnone

theorem getById_removeById_ne {l : List StyleElem} {i j : String}
    (h : i ≠ j) : getById (removeById l j) i = getById l i := by
  induction l with
  | nil => rfl
  | cons e rest ih =>
    unfold removeById
    by_cases he : (e.sid == j) = true
    · rw [if_pos he]
      have hei : (e.sid == i) = false := by
        have hj := beq_iff_eq.mp he
        simp [hj, Ne.symm h]
      rw [getById_cons_neg hei]
    · rw [if_neg he]
      by_cases hi : (e.sid == i) = true
      · rw [getById_cons_pos hi, getById_cons_pos hi]
      · rw [getById_cons_neg (by simpa using hi),
          getById_cons_neg (by simpa using hi)]
        exact ih

theorem countId_removeById_ne {l : List StyleElem} {i j : String}
    (h : i ≠ j) : countId (removeById l j) i = countId l i := by
  induction l with
  | nil => rfl
  | cons e rest ih =>
    unfold removeById
    by_cases he : (e.sid == j) = true
    · rw [if_pos he, countId_cons]
      have hei : (e.sid == i) = false := by
        have hj := beq_iff_eq.mp he
        simp [hj, Ne.symm h]
      rw [hei]
      simp
    · rw [if_neg he, countId_cons, countId_cons, ih]

theorem getById_removeById_self {l : List StyleElem} {i : String}
    (h : countId l i ≤ 1) : getById (removeById l i) i = none := by
  induction l with
  | nil => rfl
  | cons e rest ih =>
    rw [countId_cons] at h
    unfold removeById
    by_cases he : (e.sid == i) = true
    · rw [if_pos he]
      rw [he] at h
      simp at h
      exact getById_eq_none_of_countId_zero (by omega)
    · rw [if_neg he, getById_cons_neg (by simpa using he)]
      exact ih (by omega)

theorem countId_removeById_self_le {l : List StyleElem} {i : String} :
    countId (removeById l i) i ≤ countId l i := by
  induction l with
  | nil => exact Nat.le_refl _
  | cons e rest ih =>
    unfold removeById
    by_cases he : (e.sid == i) = true
    · rw [if_pos he, countId_cons]
      omega
    · rw [if_neg he, countId_cons, countId_cons]
      omega

theorem countId_append_single {l : List StyleElem} {e : StyleElem}
    {i : String} :
    countId (l ++ [e]) i = countId l i + (if e.sid == i then 1 else 0) := by
  unfold countId
  rw [List.countP_append]
  simp [List.countP_cons]

/-- `applyRule` on a settled rule is the identity (no write). -/
theorem applyRule_settled {act : ActiveStyles} {st : Root × Nat}
    {r : StyleRule} (h : ruleSettled act st.1.styles r) :
    applyRule act st r = st := by
  rcases h with ⟨h1, h2⟩
  by_cases ha : activeFor act r.key = true
  · have hsome := h1 ha
    rcases ho : getById st.1.styles r.sid with _ | e
    · rw [ho] at hsome; cases hsome
    · simp [applyRule, ha, ho]
  · have ha' : activeFor act r.key = false := by simpa using ha
    have hnone := h2 ha'
    simp [applyRule, ha', hnone]

/-- After `applyRule`, the rule itself is settled, provided its id was not
duplicated in the root. -/
theorem applyRule_settles {act : ActiveStyles} {st : Root × Nat}
    {r : StyleRule} (h : countId st.1.styles r.sid ≤ 1) :
    ruleSettled act (applyRule act st r).1.styles r := by
  by_cases ha : activeFor act r.key = true
  · rcases ho : getById st.1.styles r.sid with _ | e
    · constructor
      · intro _
        simp only [applyRule, ha, ho, if_true]
        rw [getById_append_self ho (by simp)]
        rfl
      · intro hfalse; rw [ha] at hfalse; cases hfalse
    · constructor
      · intro _
        simp only [applyRule, ha, ho, if_true]
        rfl
      · intro hfalse; rw [ha] at hfalse; cases hfalse
  · have ha' : activeFor act r.key = false := by simpa using ha
    rcases ho : getById st.1.styles r.sid with _ | e
    · constructor
      · intro htrue; rw [ha'] at htrue; cases htrue
      · intro _
        simp only [applyRule, ha', ho]
        simp [ho]
    · constructor
      · intro htrue; rw [ha'] at htrue; cases htrue
      · intro _
        simp only [applyRule, ha', ho]
        simp only [Bool.false_eq_true, if_false]
        exact getById_removeById_self h

/-- `applyRule` for one rule does not touch style elements with another
id. -/
theorem applyRule_getById_ne {act : ActiveStyles} {st : Root × Nat}
    {r : StyleRule} {i : String} (h : i ≠ r.sid) :
    getById (applyRule act st r).1.styles i = getById st.1.styles i := by
  by_cases ha : activeFor act r.key = true
  · rcases ho : getById st.1.styles r.sid with _ | e
    · simp only [applyRule, ha, ho, if_true]
      exact getById_append_ne (by simp [Ne.symm h])
    · simp [applyRule, ha, ho]
  · have ha' : activeFor act r.key = false := by simpa using ha
    rcases ho : getById st.1.styles r.sid with _ | e
    · simp [applyRule, ha', ho]
    · simp only [applyRule, ha', ho]
      simp only [Bool.false_eq_true, if_false]
      exact getById_removeById_ne h

/-- `applyRule` preserves id multiplicities away from its own rule. -/
theorem applyRule_countId_ne {act : ActiveStyles} {st : Root × Nat}
    {r : StyleRule} {i : String} (h : i ≠ r.sid) :
    countId (applyRule act st r).1.styles i = countId st.1.styles i := by
  by_cases ha : activeFor act r.key = true
  · rcases ho : getById st.1.styles r.sid with _ | e
    · simp only [applyRule, ha, ho, if_true]
      rw [countId_append_single]
      simp [Ne.symm h]
    · simp [applyRule, ha, ho]
  · have ha' : activeFor act r.key = false := by simpa using ha
    rcases ho : getById st.1.styles r.sid with _ | e
    · simp [applyRule, ha', ho]
    · simp only [applyRule, ha', ho]
      simp only [Bool.false_eq_true, if_false]
      exact countId_removeById_ne h

/-- `applyRule` keeps its own rule's id unduplicated. -/
theorem applyRule_countId_self {act : ActiveStyles} {st : Root × Nat}
    {r : StyleRule} (h : countId st.1.styles r.sid ≤ 1) :
    countId (applyRule act st r).1.styles r.sid ≤ 1 := by
  by_cases ha : activeFor act r.key = true
  · rcases ho : getById st.1.styles r.sid with _ | e
    · simp only [applyRule, ha, ho, if_true]
      rw [countId_append_single]
      have hz := countId_eq_zero_of_getById_none ho
      simp [hz]
    · simp only [applyRule, ha, ho, if_true]
      exact h
  · have ha' : activeFor act r.key = false := by simpa using ha
    rcases ho : getById st.1.styles r.sid with _ | e
    · simp only [applyRule, ha', ho]
      simpa [ho] using h
    · simp only [applyRule, ha', ho]
      simp only [Bool.false_eq_true, if_false]
      exact Nat.le_trans countId_removeById_self_le h

/-- Settledness of a rule survives the application of a rule with a
different id. -/
theorem ruleSettled_preserved {act : ActiveStyles} {st : Root × Nat}
    {r q : StyleRule} (h : q.sid ≠ r.sid)
    (hs : ruleSettled act st.1.styles q) :
    ruleSettled act (applyRule act st r).1.styles q := by
  rcases hs with ⟨h1, h2⟩
  constructor
  · intro ha
    rw [applyRule_getById_ne h]
    exact h1 ha
  · intro ha
    rw [applyRule_getById_ne h]
    exact h2 ha

/-- `applyRule` with the flag on and no existing element inserts the rule's
style element under its stable id. -/
theorem applyRule_insert {act : ActiveStyles} {st : Root × Nat}
    {r : StyleRule} (ha : activeFor act r.key = true)
    (ho : getById st.1.styles r.sid = none) :
    getById (applyRule act st r).1.styles r.sid = some ⟨r.sid, cssOf r⟩ := by
  simp only [applyRule, ha, ho, if_true]
  exact getById_append_self ho (by simp)

/-- `applyRule` with the flag off removes the rule's element entirely when
its id was unduplicated. -/
theorem applyRule_remove {act : ActiveStyles} {st : Root × Nat}
    {r : StyleRule} (ha : activeFor act r.key = false)
    (hcnt : countId st.1.styles r.sid ≤ 1) :
    getById (applyRule act st r).1.styles r.sid = none := by
  rcases (@applyRule_settles act st r hcnt) with ⟨_, h2⟩
  exact h2 ha

theorem activeFor_turnOff_self (a : ActiveStyles) (k : StyleKey) :
    activeFor (turnOff a k) k = false := by
  cases k <;> rfl

theorem activeFor_turnOff_ne (a : ActiveStyles) {k q : StyleKey}
    (h : q ≠ k) : activeFor (turnOff a k) q = activeFor a q := by
  cases k <;> cases q <;> first | rfl | exact absurd rfl h

/-- The full pass is the three rule applications in order. -/
theorem applyStylesToRoot_steps (act : ActiveStyles) (root : Root) :
    applyStylesToRoot act root
      = applyRule act
          (applyRule act (applyRule act (root, 0) rulePopular) ruleExplore)
          ruleCommunity := rfl

/-- Idempotence of the rule pass on roots without duplicated rule ids: the
second pass returns the same root and performs zero DOM writes. -/
theorem applyStylesToRoot_idem (act : ActiveStyles) (root : Root)
    (h1 : countId root.styles rulePopular.sid ≤ 1)
    (h2 : countId root.styles ruleExplore.sid ≤ 1)
    (h3 : countId root.styles ruleCommunity.sid ≤ 1) :
    applyStylesToRoot act (applyStylesToRoot act root).1
      = ((applyStylesToRoot act root).1, 0) := by
  have hPE : rulePopular.sid ≠ ruleExplore.sid := by decide
  have hPC : rulePopular.sid ≠ ruleCommunity.sid := by decide
  have hEP : ruleExplore.sid ≠ rulePopular.sid := by decide
  have hEC : ruleExplore.sid ≠ ruleCommunity.sid := by decide
  have hCP : ruleCommunity.sid ≠ rulePopular.sid := by decide
  have hCE : ruleCommunity.sid ≠ ruleExplore.sid := by decide
  have c1E : countId (applyRule act (root, 0) rulePopular).1.styles
      ruleExplore.sid ≤ 1 := by
    rw [applyRule_countId_ne hEP]; exact h2
  have c1C : countId (applyRule act (root, 0) rulePopular).1.styles
      ruleCommunity.sid ≤ 1 := by
    rw [applyRule_countId_ne hCP]; exact h3
  have c2C : countId (applyRule act (applyRule act (root, 0) rulePopular)
      ruleExplore).1.styles ruleCommunity.sid ≤ 1 := by
    rw [applyRule_countId_ne hCE]; exact c1C
  have sP : ruleSettled act ((applyStylesToRoot act root).1).styles
      rulePopular := by
    rw [applyStylesToRoot_steps]
    exact ruleSettled_preserved hPC
      (ruleSettled_preserved hPE (applyRule_settles h1))
  have sE : ruleSettled act ((applyStylesToRoot act root).1).styles
      ruleExplore := by
    rw [applyStylesToRoot_steps]
    exact ruleSettled_preserved hEC (applyRule_settles c1E)
  have sC : ruleSettled act ((applyStylesToRoot act root).1).styles
      ruleCommunity := by
    rw [applyStylesToRoot_steps]
    exact applyRule_settles c2C
  have e1 : applyRule act ((applyStylesToRoot act root).1, 0) rulePopular
      = ((applyStylesToRoot act root).1, 0) := applyRule_settled sP
  have e2 : applyRule act ((applyStylesToRoot act root).1, 0) ruleExplore
      = ((applyStylesToRoot act root).1, 0) := applyRule_settled sE
  have e3 : applyRule act ((applyStylesToRoot act root).1, 0) ruleCommunity
      = ((applyStylesToRoot act root).1, 0) := applyRule_settled sC
  rw [applyStylesToRoot_steps act (applyStylesToRoot act root).1]
  rw [e1, e2, e3]

/-- The header toggle is idempotent from any state: the second invocation
returns the same reference and document and performs zero DOM writes. -/
theorem toggleVisibility_idem (shouldHide : Bool)
    (selector styleId : String) (tagRef : TagRef)
    (headStyles : List StyleElem) :
    toggleVisibility shouldHide selector styleId
        (toggleVisibility shouldHide selector styleId tagRef headStyles).1
        (toggleVisibility shouldHide selector styleId tagRef
          headStyles).2.1
      = ((toggleVisibility shouldHide selector styleId tagRef
            headStyles).1,
         (toggleVisibility shouldHide selector styleId tagRef
            headStyles).2.1, 0) := by
  by_cases hh : shouldHide = true
  · rcases ht : tagRef.tag with _ | s
    · simp [toggleVisibility, hh, ht]
    · simp [toggleVisibility, hh, ht]
  · have hh' : shouldHide = false := by simpa using hh
    rcases ht : tagRef.tag with _ | s
    · simp [toggleVisibility, hh', ht]
    · simp [toggleVisibility, hh', ht]

/-- Removing the override under a rule's id and reapplying the pass with
the flag on restores the override: the off-pass leaves no element under the
rule's id, and the on-pass reinstates the rule's style element with its
stable id and CSS text. -/
theorem pass_off_on (act : ActiveStyles) (root : Root) (r : StyleRule)
    (hr : r ∈ sidebarRules) (hact : activeFor act r.key = true)
    (h1 : countId root.styles rulePopular.sid ≤ 1)
    (h2 : countId root.styles ruleExplore.sid ≤ 1)
    (h3 : countId root.styles ruleCommunity.sid ≤ 1) :
    getById ((applyStylesToRoot (turnOff act r.key) root).1).styles r.sid
      = none ∧
    getById ((applyStylesToRoot act
        (applyStylesToRoot (turnOff act r.key) root).1).1).styles r.sid
      = some ⟨r.sid, cssOf r⟩ := by
  have hPE : rulePopular.sid ≠ ruleExplore.sid := by decide
  have hPC : rulePopular.sid ≠ ruleCommunity.sid := by decide
  have hEP : ruleExplore.sid ≠ rulePopular.sid := by decide
  have hEC : ruleExplore.sid ≠ ruleCommunity.sid := by decide
  have hCP : ruleCommunity.sid ≠ rulePopular.sid := by decide
  have hCE : ruleCommunity.sid ≠ ruleExplore.sid := by decide
  have hr3 : r = rulePopular ∨ r = ruleExplore ∨ r = ruleCommunity := by
    simpa [sidebarRules] using hr
  rcases hr3 with rfl | rfl | rfl
  · have hoff := activeFor_turnOff_self act rulePopular.key
    have gOff : getById
        ((applyStylesToRoot (turnOff act rulePopular.key) root).1).styles
        rulePopular.sid = none := by
      rw [applyStylesToRoot_steps, applyRule_getById_ne hPC,
        applyRule_getById_ne hPE]
      exact applyRule_remove hoff h1
    refine ⟨gOff, ?_⟩
    rw [applyStylesToRoot_steps, applyRule_getById_ne hPC,
      applyRule_getById_ne hPE]
    exact applyRule_insert hact gOff
  · have hoff := activeFor_turnOff_self act ruleExplore.key
    have c1E : countId (applyRule (turnOff act ruleExplore.key) (root, 0)
        rulePopular).1.styles ruleExplore.sid ≤ 1 := by
      rw [applyRule_countId_ne hEP]; exact h2
    have gOff : getById
        ((applyStylesToRoot (turnOff act ruleExplore.key) root).1).styles
        ruleExplore.sid = none := by
      rw [applyStylesToRoot_steps, applyRule_getById_ne hEC]
      exact applyRule_remove hoff c1E
    refine ⟨gOff, ?_⟩
    rw [applyStylesToRoot_steps, applyRule_getById_ne hEC]
    have gMid : getById (applyRule act
        ((applyStylesToRoot (turnOff act ruleExplore.key) root).1, 0)
        rulePopular).1.styles ruleExplore.sid = none := by
      rw [applyRule_getById_ne hEP]; exact gOff
    exact applyRule_insert hact gMid
  · have hoff := activeFor_turnOff_self act ruleCommunity.key
    have c1C : countId (applyRule (turnOff act ruleCommunity.key) (root, 0)
        rulePopular).1.styles ruleCommunity.sid ≤ 1 := by
      rw [applyRule_countId_ne hCP]; exact h3
    have c2C : countId (applyRule (turnOff act ruleCommunity.key)
        (applyRule (turnOff act ruleCommunity.key) (root, 0) rulePopular)
        ruleExplore).1.styles ruleCommunity.sid ≤ 1 := by
      rw [applyRule_countId_ne hCE]; exact c1C
    have gOff : getById
        ((applyStylesToRoot (turnOff act ruleCommunity.key) root).1).styles
        ruleCommunity.sid = none := by
      rw [applyStylesToRoot_steps]
      exact applyRule_remove hoff c2C
    refine ⟨gOff, ?_⟩
    rw [applyStylesToRoot_steps]
    have gMid : getById (applyRule act (applyRule act
        ((applyStylesToRoot (turnOff act ruleCommunity.key) root).1, 0)
        rulePopular) ruleExplore).1.styles ruleCommunity.sid = none := by
      rw [applyRule_getById_ne hCE, applyRule_getById_ne hCP]
      exact gOff
    exact applyRule_insert hact gMid

/-- Erasing the tracked element removes the only element under its id. -/
theorem getById_eraseStyle_self {doc : List StyleElem} {s : StyleElem}
    (hget : getById doc s.sid = some s) (hcnt : countId doc s.sid ≤ 1) :
    getById (eraseStyle doc s) s.sid = none := by
  induction doc with
  | nil => cases hget
  | cons x rest ih =>
    rw [countId_cons] at hcnt
    unfold eraseStyle
    by_cases hx : (x == s) = true
    · rw [if_pos hx]
      have hxs : x = s := beq_iff_eq.mp hx
      subst hxs
      have hsid : (x.sid == x.sid) = true := by simp
      simp only [hsid, if_true] at hcnt
      exact getById_eq_none_of_countId_zero (by omega)
    · rw [if_neg hx]
      by_cases hid : (x.sid == s.sid) = true
      · rw [getById_cons_pos hid] at hget
        have hxe : x = s := by injection hget
        exact absurd (by simp [hxe]) hx
      · rw [getById_cons_neg (by simpa using hid)] at hget
        rw [getById_cons_neg (by simpa using hid)]
        simp only [hid, if_false] at hcnt
        exact ih hget (by omega)

/-- Toggling a tracked header feature off then on restores the reference
and the presence of the same style element under the same id with the same
CSS text, when the id was unduplicated in the head. -/
theorem toggleVisibility_roundTrip (selector styleId : String)
    (doc : List StyleElem)
    (hcnt : countId doc styleId ≤ 1)
    (hget : getById doc styleId = some ⟨styleId, hideCss selector⟩) :
    (toggleVisibility true selector styleId
        (toggleVisibility false selector styleId
          ⟨some ⟨styleId, hideCss selector⟩⟩ doc).1
        (toggleVisibility false selector styleId
          ⟨some ⟨styleId, hideCss selector⟩⟩ doc).2.1).1.tag
      = some ⟨styleId, hideCss selector⟩ ∧
    getById (toggleVisibility true selector styleId
        (toggleVisibility false selector styleId
          ⟨some ⟨styleId, hideCss selector⟩⟩ doc).1
        (toggleVisibility false selector styleId
          ⟨some ⟨styleId, hideCss selector⟩⟩ doc).2.1).2.1 styleId
      = some ⟨styleId, hideCss selector⟩ := by
  constructor
  · rfl
  · show getById
      (eraseStyle doc ⟨styleId, hideCss selector⟩
        ++ [⟨styleId, hideCss selector⟩]) styleId
      = some ⟨styleId, hideCss selector⟩
    refine getById_append_self ?_ (by simp)
    exact getById_eraseStyle_self hget hcnt

/-- With writes that cannot fail, the exception-aware rule application
agrees with the pure one and succeeds. -/
theorem applyRuleE_ok (act : ActiveStyles) (st : RootE × Nat)
    (r : StyleRule) (h : st.1.writeFails = false) :
    applyRuleE act st r
      = .ok (⟨(applyRule act ((⟨st.1.styles⟩ : Root), st.2) r).1.styles,
              false⟩,
             (applyRule act ((⟨st.1.styles⟩ : Root), st.2) r).2) := by
  obtain ⟨⟨styles, wf⟩, n⟩ := st
  cases h
  by_cases ha : activeFor act r.key = true
  · rcases ho : getById styles r.sid with _ | e
    · simp [applyRuleE, applyRule, ha, ho]
    · simp [applyRuleE, applyRule, ha, ho]
  · have ha' : activeFor act r.key = false := by simpa using ha
    rcases ho : getById styles r.sid with _ | e
    · simp [applyRuleE, applyRule, ha', ho]
    · simp [applyRuleE, applyRule, ha', ho]

/-- With writes that cannot fail, the whole exception-aware pass succeeds
and processes every rule, agreeing with the pure pass. -/
theorem foldlE_ok (act : ActiveStyles) :
    ∀ (rs : List StyleRule) (styles : List StyleElem) (n : Nat),
      List.foldlM (applyRuleE act) ((⟨styles, false⟩ : RootE), n) rs
        = .ok (⟨(List.foldl (applyRule act) ((⟨styles⟩ : Root), n)
                  rs).1.styles, false⟩,
               (List.foldl (applyRule act) ((⟨styles⟩ : Root), n) rs).2) := by
  intro rs
  induction rs with
  | nil => intro styles n; rfl
  | cons r rs ih =>
    intro styles n
    rw [List.foldlM_cons,
      applyRuleE_ok act ((⟨styles, false⟩ : RootE), n) r rfl,
      List.foldl_cons]
    exact ih (applyRule act ((⟨styles⟩ : Root), n) r).1.styles
      (applyRule act ((⟨styles⟩ : Root), n) r).2

/-- The exception-aware reconciliation of a root whose writes do not fail
(in particular of any merely detached root) succeeds and equals the pure
pass over all rules. -/
theorem applyStylesToRootE_ok (act : ActiveStyles) (root : RootE)
    (h : root.writeFails = false) :
    applyStylesToRootE act root
      = .ok (⟨(applyStylesToRoot act ⟨root.styles⟩).1.styles, false⟩,
             (applyStylesToRoot act ⟨root.styles⟩).2) := by
  obtain ⟨styles, wf⟩ := root
  cases h
  exact foldlE_ok act sidebarRules styles 0

/-! ## Claim theorems -/

/-- C1 counterexample: on a document state in which the id
`rex-hide-popular-style` occurs on two style elements and the `popular`
flag is off, the first reconciliation pass removes one element and the
second pass removes the other, so the DOM after the second run differs
from the DOM after the first run — reconciliation is not idempotent over
every document state. -/
theorem claim_C1_cex :
    (applyStylesToRoot initialActiveStyles
        (applyStylesToRoot initialActiveStyles
          ⟨[⟨"rex-hide-popular-style", "a"⟩,
            ⟨"rex-hide-popular-style", "b"⟩]⟩).1).1
      ≠ (applyStylesToRoot initialActiveStyles
          ⟨[⟨"rex-hide-popular-style", "a"⟩,
            ⟨"rex-hide-popular-style", "b"⟩]⟩).1 := by decide

/-- C1 (amended): reconciliation is idempotent on every settings snapshot
and every document state in which each rule's style id identifies at most
one element: the second `applyStylesToRoot` pass returns the same root and
performs zero DOM writes, because each write is guarded by the
`getElementById` check; and `toggleVisibility` is idempotent from every
state, the second invocation returning the same tag reference and head
contents with zero DOM writes, because each write is guarded by the
tracked tag reference. -/
theorem claim_C1 :
    (∀ (act : ActiveStyles) (root : Root),
        countId root.styles rulePopular.sid ≤ 1 →
        countId root.styles ruleExplore.sid ≤ 1 →
        countId root.styles ruleCommunity.sid ≤ 1 →
        applyStylesToRoot act (applyStylesToRoot act root).1
          = ((applyStylesToRoot act root).1, 0)) ∧
    (∀ (shouldHide : Bool) (selector styleId : String) (tagRef : TagRef)
        (headStyles : List StyleElem),
        toggleVisibility shouldHide selector styleId
            (toggleVisibility shouldHide selector styleId tagRef
              headStyles).1
            (toggleVisibility shouldHide selector styleId tagRef
              headStyles).2.1
          = ((toggleVisibility shouldHide selector styleId tagRef
                headStyles).1,
             (toggleVisibility shouldHide selector styleId tagRef
                headStyles).2.1, 0)) :=
  ⟨applyStylesToRoot_idem, toggleVisibility_idem⟩

/-- C1 witness: the amended idempotence applied at a concrete snapshot and
document. -/
theorem claim_C1_witness :
    applyStylesToRoot ⟨true, false, false⟩
        (applyStylesToRoot ⟨true, false, false⟩ ⟨[]⟩).1
      = ((applyStylesToRoot ⟨true, false, false⟩ ⟨[]⟩).1, 0) :=
  claim_C1.1 ⟨true, false, false⟩ ⟨[]⟩ (by decide) (by decide) (by decide)

/-- C2: for every finite retry budget and every sequence of documents
observed at each attempt, `attemptCollapse` terminates in a state where the
`rex-loader-hide` mask is absent, after at most `retries + 1` scans, and
either all target sections are recorded in the tracked set or the retry
budget is exhausted. -/
theorem claim_C2 :
    ∀ (docs : Nat → List DetailsView) (delay retries k : Nat)
      (c : List String) (mask : Bool),
      (attemptCollapse docs delay retries k c mask).2.1 = false ∧
      (attemptCollapse docs delay retries k c mask).2.2 ≤ retries + 1 ∧
      (allSectionsFound (attemptCollapse docs delay retries k c mask).1
          = true ∨
        (attemptCollapse docs delay retries k c mask).2.2 = retries + 1) :=
  fun docs delay retries k c mask =>
    attemptCollapse_spec docs delay retries k c mask

/-- C3 counterexample: with `COMMUNITIES` already in `collapsedSections`,
a run of `collapseSidebarSections` still removes the `open` attribute of an
open details element whose summary text contains `COMMUNITIES` — because
the element's first matching section in the fixed order is `RECENT`, which
is not yet satisfied.  The claim as stated (no re-toggle of any element
matching a satisfied name) is therefore false. -/
theorem claim_C3_cex :
    "COMMUNITIES" ∈ ["COMMUNITIES"] ∧
    matchesSection ⟨some "RECENT COMMUNITIES", true⟩ "COMMUNITIES"
      = true ∧
    (collapseSidebarSections ["COMMUNITIES"]
        [⟨some "RECENT COMMUNITIES", true⟩]).2.1
      = [⟨some "RECENT COMMUNITIES", false⟩] := by decide

/-- C3 (amended): once a section name is a member of `collapsedSections`,
every subsequent run of `collapseSidebarSections` leaves every details
element whose first matching section name (in the fixed
`SECTIONS_TO_COLLAPSE` order) is that name unchanged — even if the element
has been re-opened — and keeps the name in the set, until the set is
explicitly cleared. -/
theorem claim_C3 :
    ∀ (c : List String) (ds : List DetailsView) (name : String),
      name ∈ c →
      List.Forall₂ (fun d d' => firstMatchD d = some name → d' = d)
          ds (collapseSidebarSections c ds).2.1 ∧
        name ∈ (collapseSidebarSections c ds).1 :=
  fun c ds name hc =>
    ⟨collapse_sat_untouched ds c name hc, collapse_mem_mono ds c name hc⟩

/-- C3 witness: the amended no-re-toggle property applied at a concrete
satisfied section and a re-opened element. -/
theorem claim_C3_witness :
    "RECENT" ∈ ["RECENT"] ∧
    (List.Forall₂
        (fun d d' => firstMatchD d = some "RECENT" → d' = d)
        [(⟨some "RECENT", true⟩ : DetailsView)]
        (collapseSidebarSections ["RECENT"]
          [⟨some "RECENT", true⟩]).2.1 ∧
      "RECENT" ∈ (collapseSidebarSections ["RECENT"]
          [⟨some "RECENT", true⟩]).1) :=
  ⟨by decide,
   claim_C3 ["RECENT"] [⟨some "RECENT", true⟩] "RECENT" (by decide)⟩

/-- C4: `findAllShadowRoots` is complete — every shadow root reachable
from the starting root (including shadow roots nested inside other shadow
roots, to any depth) is in the returned list, the traversal being total on
every finite document; and on a document with `n` levels of nested open
shadow roots it returns exactly `n` shadow roots. -/
theorem claim_C4 :
    (∀ (root : DNode) (s : DForest),
        ShadowReach root.childrenOf s → s ∈ findAllShadowRoots root) ∧
    (∀ n : Nat, (findAllShadowRoots (chainBody n)).length = n) := by
  constructor
  · intro root s h
    exact (shadowReach_mem h).1
  · intro n
    exact walkShadows_nestedChain n

/-- C4 witness: the completeness half applied to a concrete document with
one shadow root. -/
theorem claim_C4_witness :
    (DForest.cons (DNode.mk "span" "" false "" false .nil .nil) .nil)
      ∈ findAllShadowRoots
          (DNode.mk "body" "" false "" false .nil
            (.cons (DNode.mk "div" "" false "" true
              (.cons (DNode.mk "span" "" false "" false .nil .nil) .nil)
              .nil) .nil)) :=
  claim_C4.1 _ _
    (ShadowReach.direct _
      (DNode.mk "div" "" false "" true
        (.cons (DNode.mk "span" "" false "" false .nil .nil) .nil) .nil)
      (LightDesc.head _ _) rfl)

/-- C5 counterexample: `applyStylesToRoot` contains no `try`/`catch`, so
when a DOM write fails on the first rule of the pass (all three flags on,
empty failing root), the whole pass aborts with the error instead of
processing the remaining rules — whereas the pure pass would perform all
three writes. -/
theorem claim_C5_cex :
    applyStylesToRootE ⟨true, true, true⟩ ⟨[], true⟩
      = .error "DOM write failed" ∧
    (applyStylesToRoot ⟨true, true, true⟩ ⟨[]⟩).2 = 3 :=
  ⟨rfl, rfl⟩

/-- C5 (amended): a failing DOM write is not caught — it aborts the rest
of the `rules.forEach` pass; but a merely detached root never makes a
write fail (its writes are no-ops on the detached subtree), and whenever
no write fails the exception-aware pass succeeds and processes every rule,
agreeing with the total pure reconciler. -/
theorem claim_C5 :
    ∀ (act : ActiveStyles) (root : RootE), root.writeFails = false →
      applyStylesToRootE act root
        = .ok (⟨(applyStylesToRoot act ⟨root.styles⟩).1.styles, false⟩,
               (applyStylesToRoot act ⟨root.styles⟩).2) :=
  applyStylesToRootE_ok

/-- C5 witness: the amended property applied to a concrete non-failing
root. -/
theorem claim_C5_witness :
    (⟨[], false⟩ : RootE).writeFails = false ∧
    applyStylesToRootE ⟨true, true, true⟩ ⟨[], false⟩
      = .ok (⟨(applyStylesToRoot ⟨true, true, true⟩ ⟨[]⟩).1.styles,
              false⟩,
             (applyStylesToRoot ⟨true, true, true⟩ ⟨[]⟩).2) :=
  ⟨rfl, claim_C5 ⟨true, true, true⟩ ⟨[], false⟩ rfl⟩

/-- C6 counterexample: with the `popular` flag on and its override present
with its stable id, but the id duplicated by a second style element with
different CSS text, toggling the flag off removes only the first element,
and toggling it back on finds the leftover and inserts nothing — the
restored state carries the wrong CSS text, so the round trip is not
observationally identical on every document state. -/
theorem claim_C6_cex :
    getById [⟨"rex-hide-popular-style", cssOf rulePopular⟩,
             ⟨"rex-hide-popular-style", "junk"⟩] rulePopular.sid
      = some ⟨rulePopular.sid, cssOf rulePopular⟩ ∧
    activeFor ⟨true, false, false⟩ rulePopular.key = true ∧
    getById ((applyStylesToRoot ⟨true, false, false⟩
        ((applyStylesToRoot
          (turnOff ⟨true, false, false⟩ rulePopular.key)
          ⟨[⟨"rex-hide-popular-style", cssOf rulePopular⟩,
            ⟨"rex-hide-popular-style", "junk"⟩]⟩).1)).1).styles
        rulePopular.sid
      = some ⟨rulePopular.sid, "junk"⟩ ∧
    "junk" ≠ cssOf rulePopular := by decide

/-- C6 (amended): starting from a state where a feature flag is on and its
override style element is present under its stable id, with that id
identifying at most one element in the root, toggling the flag off removes
the element and toggling it on again restores a DOM state observationally
identical to the initial on-state — the same override id present with the
same CSS text; and likewise for the header toggle when the tracked
`styleId` identifies at most one element in the head. -/
theorem claim_C6 :
    (∀ (act : ActiveStyles) (root : Root) (r : StyleRule),
        r ∈ sidebarRules → activeFor act r.key = true →
        countId root.styles rulePopular.sid ≤ 1 →
        countId root.styles ruleExplore.sid ≤ 1 →
        countId root.styles ruleCommunity.sid ≤ 1 →
        getById root.styles r.sid = some ⟨r.sid, cssOf r⟩ →
        getById ((applyStylesToRoot (turnOff act r.key) root).1).styles
            r.sid = none ∧
        getById ((applyStylesToRoot act
            (applyStylesToRoot (turnOff act r.key) root).1).1).styles
            r.sid = some ⟨r.sid, cssOf r⟩) ∧
    (∀ (selector styleId : String) (doc : List StyleElem),
        countId doc styleId ≤ 1 →
        getById doc styleId = some ⟨styleId, hideCss selector⟩ →
        (toggleVisibility true selector styleId
            (toggleVisibility false selector styleId
              ⟨some ⟨styleId, hideCss selector⟩⟩ doc).1
            (toggleVisibility false selector styleId
              ⟨some ⟨styleId, hideCss selector⟩⟩ doc).2.1).1.tag
          = some ⟨styleId, hideCss selector⟩ ∧
        getById (toggleVisibility true selector styleId
            (toggleVisibility false selector styleId
              ⟨some ⟨styleId, hideCss selector⟩⟩ doc).1
            (toggleVisibility false selector styleId
              ⟨some ⟨styleId, hideCss selector⟩⟩ doc).2.1).2.1 styleId
          = some ⟨styleId, hideCss selector⟩) := by
  constructor
  · intro act root r hr hact h1 h2 h3 _hpresent
    exact pass_off_on act root r hr hact h1 h2 h3
  · intro selector styleId doc hcnt hget
    exact toggleVisibility_roundTrip selector styleId doc hcnt hget

/-- C6 witness: the amended round trip applied at a concrete on-state. -/
theorem claim_C6_witness :
    getById ((applyStylesToRoot
        (turnOff ⟨true, false, false⟩ rulePopular.key)
        ⟨[⟨rulePopular.sid, cssOf rulePopular⟩]⟩).1).styles
      rulePopular.sid = none ∧
    getById ((applyStylesToRoot ⟨true, false, false⟩
        (applyStylesToRoot
          (turnOff ⟨true, false, false⟩ rulePopular.key)
          ⟨[⟨rulePopular.sid, cssOf rulePopular⟩]⟩).1).1).styles
      rulePopular.sid = some ⟨rulePopular.sid, cssOf rulePopular⟩ :=
  claim_C6.1 ⟨true, false, false⟩ ⟨[⟨rulePopular.sid, cssOf rulePopular⟩]⟩
    rulePopular (by decide) (by decide) (by decide) (by decide) (by decide)
    (by decide)

/-- C7: when the extension storage API is unavailable (any of `chrome`,
`chrome.storage`, `chrome.storage.sync` undefined), `loadSettings` still
resolves — without error — with the built-in defaults, `initLinkHiding`
leaves `activeStyles` at its initial values and performs no storage
operation, and `saveSetting` attempts no write-back. -/
theorem claim_C7 :
    ∀ (env : ChromeEnv) (st : StoredSettings) (act : ActiveStyles),
      storageAvailable env = false →
      loadSettings env st defaultSettings = .ok (defaultSettings, []) ∧
      initLinkHiding env act = (act, []) ∧
      ∀ key, saveSettingOps env key = [] := by
  intro env st act h
  refine ⟨?_, ?_, ?_⟩
  · simp [loadSettings, h]
  · simp [initLinkHiding, h]
  · intro key; simp [saveSettingOps, h]

/-- C7 witness: the fallback applied to a concrete environment with
`chrome` undefined. -/
theorem claim_C7_witness :
    storageAvailable ⟨false, true, true, []⟩ = false ∧
    (loadSettings ⟨false, true, true, []⟩
        ⟨none, none, none, none, none, none⟩ defaultSettings
      = .ok (defaultSettings, []) ∧
    initLinkHiding ⟨false, true, true, []⟩ initialActiveStyles
      = (initialActiveStyles, []) ∧
    ∀ key, saveSettingOps ⟨false, true, true, []⟩ key = []) :=
  ⟨rfl, claim_C7 ⟨false, true, true, []⟩
    ⟨none, none, none, none, none, none⟩ initialActiveStyles rfl⟩

/-- C8: whenever a mutation batch adds an element node whose text content
contains one of the target section labels, the observer callback clears
the tracked set and restarts the convergence loop with budget
`(OBSERVER_RETRIES, OBSERVER_DELAY) = (5, 200)`, strictly smaller than the
initial page-load budget `(DEFAULT_RETRIES, DEFAULT_DELAY) = (30, 600)`. -/
theorem claim_C8 :
    ∀ (batch : List (List AddedNode)) (collapsed : List String),
      (∃ added ∈ batch, ∃ a ∈ added, a.isElement = true ∧
        ∃ s ∈ SECTIONS_TO_COLLAPSE,
          sectionMatches (textContentN a.node) s = true) →
      observerCollapseRestart batch collapsed
        = ([], some (OBSERVER_RETRIES, OBSERVER_DELAY)) ∧
      OBSERVER_RETRIES < DEFAULT_RETRIES ∧
      OBSERVER_DELAY < DEFAULT_DELAY := by
  intro batch collapsed h
  have hcheck : observerShouldCheck batch = true := by
    rcases h with ⟨added, hadd, a, ha, hel, s, hs, hm⟩
    unfold observerShouldCheck
    rw [List.any_eq_true]
    refine ⟨added, hadd, ?_⟩
    rw [List.any_eq_true]
    refine ⟨a, ha, ?_⟩
    rw [hel, Bool.true_and]
    unfold hasTargetSection
    rw [List.any_eq_true]
    exact ⟨s, hs, hm⟩
  exact ⟨by simp [observerCollapseRestart, hcheck], by decide, by decide⟩

/-- C8 witness: the restart applied to a concrete qualifying mutation
batch. -/
theorem claim_C8_witness :
    (∃ added ∈ [[(⟨true, .mk "div" "" false "RECENT" false .nil .nil⟩ :
          AddedNode)]],
      ∃ a ∈ added, a.isElement = true ∧
        ∃ s ∈ SECTIONS_TO_COLLAPSE,
          sectionMatches (textContentN a.node) s = true) ∧
    (observerCollapseRestart
        [[⟨true, .mk "div" "" false "RECENT" false .nil .nil⟩]]
        ["COMMUNITIES"]
      = ([], some (OBSERVER_RETRIES, OBSERVER_DELAY)) ∧
    OBSERVER_RETRIES < DEFAULT_RETRIES ∧
    OBSERVER_DELAY < DEFAULT_DELAY) :=
  ⟨by decide,
   claim_C8 [[⟨true, .mk "div" "" false "RECENT" false .nil .nil⟩]]
     ["COMMUNITIES"] (by decide)⟩

/-- C9: the mutation-triggered reset is global — a qualifying added
element node makes the callback clear the entire `collapsedSections` set
(no name survives, however unrelated to the added content), so every
section name with a matching details element is processed again by the
restarted run, re-entering the tracked set and collapsing its element if
open. -/
theorem claim_C9 :
    ∀ (batch : List (List AddedNode)) (collapsed : List String),
      (∃ added ∈ batch, ∃ a ∈ added, a.isElement = true ∧
        hasTargetSection a.node = true) →
      (observerCollapseRestart batch collapsed).1 = [] ∧
      (∀ name : String, name ∉ (observerCollapseRestart batch collapsed).1) ∧
      (∀ (name : String) (ds : List DetailsView) (d : DetailsView),
        d ∈ ds → firstMatchD d = some name →
        name ∈ (collapseSidebarSections
            (observerCollapseRestart batch collapsed).1 ds).1) := by
  intro batch collapsed h
  have hcheck : observerShouldCheck batch = true := by
    rcases h with ⟨added, hadd, a, ha, hel, hts⟩
    unfold observerShouldCheck
    rw [List.any_eq_true]
    refine ⟨added, hadd, ?_⟩
    rw [List.any_eq_true]
    exact ⟨a, ha, by rw [hel, Bool.true_and]; exact hts⟩
  have hclear : (observerCollapseRestart batch collapsed).1 = [] := by
    simp [observerCollapseRestart, hcheck]
  refine ⟨hclear, ?_, ?_⟩
  · intro name
    rw [hclear]
    exact List.not_mem_nil name
  · intro name ds d hd hfd
    exact hclear ▸ collapse_mem_of_witness ds _ name d hd hfd

/-- C9 witness: the global reset applied to a concrete batch and a
previously satisfied unrelated section. -/
theorem claim_C9_witness :
    (∃ added ∈ [[(⟨true, .mk "div" "" false "RECENT" false .nil .nil⟩ :
          AddedNode)]],
      ∃ a ∈ added, a.isElement = true ∧ hasTargetSection a.node = true) ∧
    ((observerCollapseRestart
        [[⟨true, .mk "div" "" false "RECENT" false .nil .nil⟩]]
        ["COMMUNITIES", "RESOURCES"]).1 = [] ∧
    (∀ name : String, name ∉ (observerCollapseRestart
        [[⟨true, .mk "div" "" false "RECENT" false .nil .nil⟩]]
        ["COMMUNITIES", "RESOURCES"]).1) ∧
    (∀ (name : String) (ds : List DetailsView) (d : DetailsView),
      d ∈ ds → firstMatchD d = some name →
      name ∈ (collapseSidebarSections
          (observerCollapseRestart
            [[⟨true, .mk "div" "" false "RECENT" false .nil .nil⟩]]
            ["COMMUNITIES", "RESOURCES"]).1 ds).1)) :=
  ⟨by decide,
   claim_C9 [[⟨true, .mk "div" "" false "RECENT" false .nil .nil⟩]]
     ["COMMUNITIES", "RESOURCES"] (by decide)⟩

/-- C10: per-run match and single-collapse semantics: (1) a details
element matches a section name exactly when the `textContent` of its first
`summary` descendant, uppercased, contains the name uppercased; (2) the
run acts on an element only through its first matching section name in the
fixed order, which is a matching member of `SECTIONS_TO_COLLAPSE`; (3) per
run, at most one element is collapsed for each section name; (4) an
element changes only by losing its `open` attribute, and only if it was
open with some first matching section; (5) a matching element that is
already closed is recorded as satisfied with no DOM write to it. -/
theorem claim_C10 :
    (∀ (n : DNode) (s : String),
        matchesSection (detailsView n) s
          = (match firstSummaryF n.childrenOf with
             | none => false
             | some sum => sectionMatches (textContentN sum) s)) ∧
    (∀ (d : DetailsView) (name : String), firstMatchD d = some name →
        name ∈ SECTIONS_TO_COLLAPSE ∧ matchesSection d name = true) ∧
    (∀ (c : List String) (ds : List DetailsView) (name : String),
        countCollapsedFor name ds (collapseSidebarSections c ds).2.1 ≤ 1) ∧
    (∀ (c : List String) (ds : List DetailsView),
        List.Forall₂ (fun d d' => d' = d ∨
            (∃ name, firstMatchD d = some name ∧ d.isOpen = true ∧
              d' = { d with isOpen := false }))
          ds (collapseSidebarSections c ds).2.1) ∧
    (∀ (c : List String) (ds : List DetailsView) (name : String)
        (d : DetailsView), d ∈ ds → firstMatchD d = some name →
        d.isOpen = false →
        name ∈ (collapseSidebarSections c ds).1 ∧
          List.Forall₂ (fun e e' => e = d → e' = e)
            ds (collapseSidebarSections c ds).2.1) := by
  refine ⟨?_, ?_, ?_, ?_, ?_⟩
  · intro n s
    cases h : firstSummaryF n.childrenOf <;>
      simp [matchesSection, detailsView, h]
  · intro d name hfd
    obtain ⟨t, hsum, hfm⟩ :
        ∃ t, d.summaryText = some t ∧ firstMatch t = some name := by
      unfold firstMatchD at hfd
      cases hsum : d.summaryText with
      | none => rw [hsum] at hfd; exact Option.noConfusion hfd
      | some t => rw [hsum] at hfd; exact ⟨t, rfl, hfd⟩
    constructor
    · exact List.mem_of_find?_eq_some hfm
    · have := List.find?_some hfm
      simp [matchesSection, hsum, this]
  · intro c ds name
    exact collapse_count_le_one ds c name
  · intro c ds
    exact collapse_change_shape ds c
  · intro c ds name d hd hfd ho
    exact collapse_closed_recorded ds c name d hd hfd ho

/-- C10 witness: the closed-element clause applied at a concrete run. -/
theorem claim_C10_witness :
    ((⟨some "RECENT", false⟩ : DetailsView) ∈
        [(⟨some "RECENT", false⟩ : DetailsView)] ∧
      firstMatchD (⟨some "RECENT", false⟩ : DetailsView) = some "RECENT" ∧
      (⟨some "RECENT", false⟩ : DetailsView).isOpen = false) ∧
    ("RECENT" ∈ (collapseSidebarSections [] [⟨some "RECENT", false⟩]).1 ∧
      List.Forall₂
        (fun e e' => e = (⟨some "RECENT", false⟩ : DetailsView) → e' = e)
        [(⟨some "RECENT", false⟩ : DetailsView)]
        (collapseSidebarSections [] [⟨some "RECENT", false⟩]).2.1) :=
  ⟨⟨by decide, by decide, rfl⟩,
   claim_C10.2.2.2.2 [] [⟨some "RECENT", false⟩] "RECENT"
     ⟨some "RECENT", false⟩ (by decide) (by decide) rfl⟩

end REX
